import Mathlib

/-!
Verification development for the Legion-based channel messaging benchmark
(`messaging.cc`).  The definitions below are a shallow embedding of the
latest revision of the source (the second revision contained in the file,
whose constants are `CHANNELS_PER_USER = 4`, `MAX_RETURNED_MESSAGES = 20`).
Machine integers (`message_id_t` = `uint32_t`, &c.) are modelled as `Nat`
with explicit `% 2 ^ w` at the arithmetic operations the source performs
on them.  Legion regions are modelled by the shard they grant access to:
a message region is the `(channel, message_id)` pair of the slot it names.
-/

/-- `CHANNELS_PER_USER` from the source (latest revision uses 4). -/
def CHANNELS_PER_USER : Nat := 4

/-- `MAX_RETURNED_MESSAGES` from the source: capacity of `MessageList`. -/
def MAX_RETURNED_MESSAGES : Nat := 20

/-- Modulus of `uint8_t` (`channel_id_t`). -/
def UINT8_MOD : Nat := 2 ^ 8

/-- Modulus of `uint16_t` (`user_id_t`). -/
def UINT16_MOD : Nat := 2 ^ 16

/-- Modulus of `uint32_t` (`message_id_t`, `unsigned int`). -/
def UINT32_MOD : Nat := 2 ^ 32

/-- Modulus of `unsigned long` (`n_requests`). -/
def UINT64_MOD : Nat := 2 ^ 64

/-- The `Message` struct: position, author, logical timestamp, text.
`time_t` timestamps come from the dispatcher's counter, hence `Nat`. -/
structure Message where
  message_id : Nat
  author_id : Nat
  timestamp : Nat
  text : String
deriving DecidableEq, Repr

/-- Zero-filled message, standing for default-constructed slot contents. -/
def emptyMessage : Message := { message_id := 0, author_id := 0, timestamp := 0, text := "" }

/-- The `ExecutePostData` task argument. -/
structure ExecutePostData where
  channel_id : Nat
  next_channel_msg_id : Nat
  message : Message

/-- The `ExecutePostResponse` struct. -/
structure ExecutePostResponse where
  success : Bool
deriving DecidableEq, Repr

/-- The `ExecuteFetchData` task argument: user, its followed channels and
the two cursor snapshots, each an array of `CHANNELS_PER_USER` entries. -/
structure ExecuteFetchData where
  user_id : Nat
  watched_channel_ids : Fin CHANNELS_PER_USER → Nat
  next_unread_msg_ids : Fin CHANNELS_PER_USER → Nat
  next_channel_msg_ids : Fin CHANNELS_PER_USER → Nat

/-- The `ExecuteFetchResponse` struct.  The source holds a fixed
`Message msgs[MAX_RETURNED_MESSAGES]` array which the execute task mutates
by `response.messages[index] = {...}`; `writes` records that store
sequence as `(index, value)` pairs so that out-of-capacity indices remain
observable.  `num_messages` is `message_id_t`. -/
structure ExecuteFetchResponse where
  success : Bool
  num_messages : Nat
  writes : List (Nat × Message)
deriving DecidableEq, Repr

/-- The partitioned mutable state owned by the Legion regions:
per-channel write cursors (`NEXT_MSG_ID`), per-user read cursors
(`NEXT_UNREAD_MSG_IDS`), the message slots (fields `AUTHOR_ID`,
`TIMESTAMP`, `TEXT`; `none` means the slot was never written), and the
immutable followed-channels table (`FOLLOWED_CHANNEL_IDS`). -/
@[ext]
structure ServerState where
  next_msg : Nat → Nat
  next_unread : Nat → Fin CHANNELS_PER_USER → Nat
  messages : Nat → Nat → Option Message
  watched : Nat → Fin CHANNELS_PER_USER → Nat

/-- The state after initialization in `dispatch_task`: all write cursors 0,
all read cursors 0, no message slot written, followed channels `w`. -/
def initState (w : Nat → Fin CHANNELS_PER_USER → Nat) : ServerState :=
  { next_msg := fun _ => 0
    next_unread := fun _ _ => 0
    messages := fun _ _ => none
    watched := w }

/-- `execute_post_task` of the source: if the channel's current write
cursor differs from `data.next_channel_msg_id` it fails with no mutation;
otherwise it writes the message fields into slot
`(channel_id, next_channel_msg_id)` and then increments the `uint32_t`
write cursor (`next_msg[ch] = next_msg[ch] + 1`, i.e. `+ 1 % 2^32`). -/
def execute_post_task (s : ServerState) (data : ExecutePostData) :
    ExecutePostResponse × ServerState :=
  if s.next_msg data.channel_id = data.next_channel_msg_id then
    ({ success := true },
      { s with
        messages := fun c j =>
          if c = data.channel_id ∧ j = data.next_channel_msg_id then some data.message
          else s.messages c j
        next_msg := Function.update s.next_msg data.channel_id
          ((s.next_msg data.channel_id + 1) % UINT32_MOD) })
  else ({ success := false }, s)

/-- The per-slot upper bound computed by `execute_fetch_task`:
`std::min(next_channel_msg_ids[i], next_unread_msg_ids[i] + MAX_RETURNED_MESSAGES)`,
where the addition is 32-bit unsigned arithmetic. -/
def upperBound (readSnap chanSnap : Fin CHANNELS_PER_USER → Nat)
    (i : Fin CHANNELS_PER_USER) : Nat :=
  min (chanSnap i) ((readSnap i + MAX_RETURNED_MESSAGES) % UINT32_MOD)

/-- Inner loop of `execute_fetch_task`: for each message id `j` it reads
the message fields through `regions[index]` (the region at the running
region index, NOT necessarily the slot `(channel, j)`), stores
`{message_id = j, author, timestamp, text}` at `messages[index]`, and
increments `index`.  Returns the stores performed and the final index. -/
def readMsgs (s : ServerState) (regions : List (Nat × Nat)) :
    List Nat → Nat → List (Nat × Message) × Nat
  | [], idx => ([], idx)
  | j :: js, idx =>
    let r := regions.getD idx (0, 0)
    let m := (s.messages r.1 r.2).getD emptyMessage
    let rest := readMsgs s regions js (idx + 1)
    ((idx, { message_id := j, author_id := m.author_id,
             timestamp := m.timestamp, text := m.text }) :: rest.1, rest.2)

/-- Outer loop of `execute_fetch_task` over the `CHANNELS_PER_USER` slots,
threading the region/store index (which the source initializes to 1). -/
def fetchReads (s : ServerState) (regions : List (Nat × Nat))
    (readSnap chanSnap : Fin CHANNELS_PER_USER → Nat) :
    List (Fin CHANNELS_PER_USER) → Nat → List (Nat × Message) × Nat
  | [], idx => ([], idx)
  | i :: is, idx =>
    let maxId := upperBound readSnap chanSnap i
    let here := readMsgs s regions (List.range' (readSnap i) (maxId - readSnap i)) idx
    let rest := fetchReads s regions readSnap chanSnap is here.2
    (here.1 ++ rest.1, rest.2)

/-- `execute_fetch_task` of the source (latest revision).  It validates the
read-cursor snapshot against the user's current cursors; on mismatch it
returns `success = false` with no mutation — the response's
`num_messages` field is left uninitialized by the source
(`ExecuteFetchResponse response;`), which is modelled by the caller-chosen
`junkCount`.  On success it runs the paginated read loop starting at
region/store index 1, sets each slot's cursor to its `upperBound`, and
assigns the final index (an `unsigned long long` truncated to
`message_id_t`) to `num_messages`. -/
def execute_fetch_task (s : ServerState) (data : ExecuteFetchData)
    (regions : List (Nat × Nat)) (junkCount : Nat) :
    ExecuteFetchResponse × ServerState :=
  if ∀ i, data.next_unread_msg_ids i = s.next_unread data.user_id i then
    let r := fetchReads s regions data.next_unread_msg_ids data.next_channel_msg_ids
      (List.finRange CHANNELS_PER_USER) 1
    ({ success := true, num_messages := r.2 % UINT32_MOD, writes := r.1 },
      { s with
        next_unread := Function.update s.next_unread data.user_id
          (fun i => upperBound data.next_unread_msg_ids data.next_channel_msg_ids i) })
  else ({ success := false, num_messages := junkCount, writes := [] }, s)

/-- The message regions the dispatcher attaches to an `EXECUTE_FETCH_TASK`
launcher: for each slot `i`, one region per message id `j` in
`[next_unread_msg_ids[i], next_channel_msg_ids[i])` — the FULL backlog,
not capped at `MAX_RETURNED_MESSAGES`. -/
def buildFetchRegions (watched readSnap chanSnap : Fin CHANNELS_PER_USER → Nat) :
    List (Nat × Nat) :=
  ((List.finRange CHANNELS_PER_USER).map (fun i =>
    (List.range' (readSnap i) (chanSnap i - readSnap i)).map (fun j => (watched i, j)))).flatten

/-- The full region vector of an `EXECUTE_FETCH_TASK` launch: position 0 is
the user's read-cursor region (stood for by a placeholder pair, never read
as a message since the execute loop starts at index 1), positions 1..
are the message regions in dispatch order. -/
def fetchRegions (watched readSnap chanSnap : Fin CHANNELS_PER_USER → Nat) :
    List (Nat × Nat) :=
  (0, 0) :: buildFetchRegions watched readSnap chanSnap

/-- The fail-fast configuration validation performed at the top of
`dispatch_task` (latest revision), as a pure function of the option
values supplied on the command line (`none` = option absent).  The local
variables are initialized `user_count = 0, channel_count = 0,
msg_count = 0, n_requests = 0, request_ratio = 1` and overwritten by the
parsed options, truncated to their integer widths.  Returns `true` when
the process proceeds past the three checks, `false` when it exits with a
non-zero status.  `n_requests / ((request_ratio + 1) % 2^32)` mirrors the
`unsigned long / unsigned int` division computing `n_post_requests`
(Lean's division by zero standing in for the C division-by-zero when
`request_ratio + 1` wraps to 0). -/
def proceedsArgs (n k m t r : Option Nat) : Bool :=
  let userCount := n.getD 0 % UINT16_MOD
  let channelCount := k.getD 0 % UINT8_MOD
  let msgCount := m.getD 0 % UINT32_MOD
  let nRequests := t.getD 0 % UINT64_MOD
  let rrVal := r.getD 1 % UINT32_MOD
  if userCount = 0 ∨ channelCount = 0 ∨ msgCount = 0 ∨ nRequests = 0 ∨ rrVal = 0 then
    false
  else if channelCount < CHANNELS_PER_USER then
    false
  else if nRequests / ((rrVal + 1) % UINT32_MOD) = 0 then
    false
  else
    true

/-- Modelled from the claim's words (for refutation only): the
configurations at which claim C8 says the process must exit with a
non-zero status — some required value zero or missing, `channel_count`
below `CHANNELS_PER_USER`, or a zero post-request count. -/
def exitsPerClaim (n k m t r : Option Nat) : Prop :=
  (n = none ∨ n.getD 0 = 0) ∨ (k = none ∨ k.getD 0 = 0) ∨ (m = none ∨ m.getD 0 = 0) ∨
  (t = none ∨ t.getD 0 = 0) ∨ (r = none ∨ r.getD 1 = 0) ∨
  k.getD 0 < CHANNELS_PER_USER ∨ t.getD 0 / (r.getD 1 + 1) = 0

/-- The dispatch-loop actions that touch the logical `time` counter.
Each outer-loop iteration launches at most one execute task for a ready
prepared request and then admits at most one request from the stream:
`launchPost` is the POST branch (stamps `timestamp = time` then `time++`),
`launchFetch` is the FETCH branch (no `time` access), and `popReq` is the
`requests.pop_front(); time++` at the bottom of the loop. -/
inductive DispatchEvent where
  | launchPost
  | launchFetch
  | popReq

/-- Value of the `time` counter after a sequence of dispatch events,
starting from `t` (the source starts it at 0). -/
def timeAfter : List DispatchEvent → Nat → Nat
  | [], t => t
  | DispatchEvent.launchPost :: es, t => timeAfter es (t + 1)
  | DispatchEvent.launchFetch :: es, t => timeAfter es t
  | DispatchEvent.popReq :: es, t => timeAfter es (t + 1)

/-- The timestamps stamped onto successive POST execute tasks, in launch
order, when the counter starts at `t`. -/
def postTimestamps : List DispatchEvent → Nat → List Nat
  | [], _ => []
  | DispatchEvent.launchPost :: es, t => t :: postTimestamps es (t + 1)
  | DispatchEvent.launchFetch :: es, t => postTimestamps es t
  | DispatchEvent.popReq :: es, t => postTimestamps es (t + 1)

/-- Number of requests admitted from the input stream. -/
def popCount : List DispatchEvent → Nat
  | [] => 0
  | DispatchEvent.popReq :: es => popCount es + 1
  | _ :: es => popCount es

/-- Number of POST execute tasks launched. -/
def launchPostCount : List DispatchEvent → Nat
  | [] => 0
  | DispatchEvent.launchPost :: es => launchPostCount es + 1
  | _ :: es => launchPostCount es

/-- A shard-store operation: an `EXECUTE_POST_TASK` with its dispatcher-built
argument, or an `EXECUTE_FETCH_TASK` with the two snapshots the dispatcher
obtained from the prepare phase (`junk` is the indeterminate initial
`num_messages`, irrelevant to the state). -/
inductive Op where
  | post (c e : Nat) (m : Message)
  | fetch (u : Nat) (readSnap writeSnap : Fin CHANNELS_PER_USER → Nat) (junk : Nat)

/-- Apply one execute task to the store.  For a fetch, the dispatcher reads
the user's followed channels from the store and attaches the message
regions for the full snapshot backlog, exactly as in `dispatch_task`. -/
def step (s : ServerState) : Op → ServerState
  | Op.post c e m => (execute_post_task s { channel_id := c, next_channel_msg_id := e, message := m }).2
  | Op.fetch u rs ws junk =>
    (execute_fetch_task s
      { user_id := u, watched_channel_ids := s.watched u,
        next_unread_msg_ids := rs, next_channel_msg_ids := ws }
      (fetchRegions (s.watched u) rs ws) junk).2

/-- The store after running a sequence of execute tasks from the initial
state with followed-channels table `w`. -/
def runTrace (w : Nat → Fin CHANNELS_PER_USER → Nat) (ops : List Op) : ServerState :=
  ops.foldl step (initState w)

/-- Claim C4's side condition: every fetch's write-cursor snapshot was
taken from an earlier state of the same run — for each slot `i` there is a
prefix of the operations already executed whose state has exactly that
write cursor on the followed channel. -/
def snapshotsOk (w : Nat → Fin CHANNELS_PER_USER → Nat) (ops : List Op) : Prop :=
  ∀ k (hk : k < ops.length) u rs ws junk, ops.get ⟨k, hk⟩ = Op.fetch u rs ws junk →
    ∀ i, ∃ j, j ≤ k ∧ ws i = (runTrace w (ops.take j)).next_msg (w u i)

/-- No `uint32_t` wraparound among the posts of a run: every post's
expected message id has `e + 1 < 2^32`. -/
def postsNoWrap (ops : List Op) : Prop :=
  ∀ op ∈ ops, ∀ c e m, op = Op.post c e m → e + 1 < UINT32_MOD

/-- Log contiguity: a channel's written slots are exactly the ids below
its write cursor. -/
def logContiguity (s : ServerState) : Prop :=
  ∀ c j, (s.messages c j).isSome ↔ j < s.next_msg c

/-- Every successful post of the run claims a previously-unwritten slot
(no message slot is ever written twice). -/
def freshWrites (w : Nat → Fin CHANNELS_PER_USER → Nat) (ops : List Op) : Prop :=
  ∀ k (hk : k < ops.length) c e m, ops.get ⟨k, hk⟩ = Op.post c e m →
    (execute_post_task (runTrace w (ops.take k))
      { channel_id := c, next_channel_msg_id := e, message := m }).1.success = true →
    (runTrace w (ops.take k)).messages c e = none

/-- A followed-channels table used for concrete instances: every user
follows channels 0,1,2,3 (distinct, as sampled without replacement). -/
def wId : Nat → Fin CHANNELS_PER_USER → Nat := fun _ i => i.val

/-- Concrete store for the C1 instances: channel cursors 0. -/
def sPostW : ServerState := initState wId

/-- A post whose expected id 5 differs from the current cursor 0. -/
def dPostFail : ExecutePostData :=
  { channel_id := 0, next_channel_msg_id := 5,
    message := { message_id := 5, author_id := 3, timestamp := 2, text := "hello" } }

/-- A post whose expected id 0 matches the current cursor 0. -/
def dPostOk : ExecutePostData :=
  { channel_id := 0, next_channel_msg_id := 0,
    message := { message_id := 0, author_id := 3, timestamp := 2, text := "hello" } }

/-- Store whose channel-0 write cursor sits at the largest `uint32_t`. -/
def sWrap : ServerState :=
  { next_msg := fun _ => UINT32_MOD - 1
    next_unread := fun _ _ => 0
    messages := fun _ _ => none
    watched := wId }

/-- A post expecting that largest cursor value. -/
def dWrap : ExecutePostData :=
  { channel_id := 0, next_channel_msg_id := UINT32_MOD - 1, message := emptyMessage }

/-- Claim C1, counterexample: at `e = 2^32 - 1` the matching call succeeds
but the `uint32_t` write cursor wraps to 0, not to `e + 1` as claimed. -/
theorem C1_cursor_wrap_counterexample :
    (execute_post_task sWrap dWrap).1.success = true ∧
    (execute_post_task sWrap dWrap).2.next_msg 0 = 0 ∧
    (0 : Nat) ≠ (UINT32_MOD - 1) + 1 := by
  decide

/-- Claim C1 (amended): if the channel's current write cursor differs from
the expected value `e`, `ExecutePost` fails and performs no mutation; if it
equals `e`, the call writes the message into slot `(c, e)`, leaves all
other slots and channels untouched, returns success, and advances the
cursor to `(e + 1) % 2^32` — equal to `e + 1` whenever `e + 1 < 2^32`. -/
theorem C1_execute_post_occ (s : ServerState) (d : ExecutePostData) :
    (s.next_msg d.channel_id ≠ d.next_channel_msg_id →
      (execute_post_task s d).1.success = false ∧ (execute_post_task s d).2 = s) ∧
    (s.next_msg d.channel_id = d.next_channel_msg_id →
      (execute_post_task s d).1.success = true ∧
      (execute_post_task s d).2.messages d.channel_id d.next_channel_msg_id = some d.message ∧
      (execute_post_task s d).2.next_msg d.channel_id = (d.next_channel_msg_id + 1) % UINT32_MOD ∧
      (∀ c j, ¬(c = d.channel_id ∧ j = d.next_channel_msg_id) →
        (execute_post_task s d).2.messages c j = s.messages c j) ∧
      (∀ c, c ≠ d.channel_id → (execute_post_task s d).2.next_msg c = s.next_msg c)) := by
  constructor
  · intro h
    unfold execute_post_task
    rw [if_neg h]
    exact ⟨rfl, rfl⟩
  · intro h
    unfold execute_post_task
    rw [if_pos h]
    refine ⟨rfl, by simp, ?_, ?_, ?_⟩
    · show Function.update s.next_msg d.channel_id _ d.channel_id = _
      rw [Function.update_same, h]
    · intro c j hcj
      show (if c = d.channel_id ∧ j = d.next_channel_msg_id then _ else s.messages c j) = _
      rw [if_neg hcj]
    · intro c hc
      show Function.update s.next_msg d.channel_id _ c = _
      rw [Function.update_noteq hc]

/-- Witness for `C1_execute_post_occ` at concrete inputs: a mismatching
call fails, a matching call succeeds. -/
theorem C1_execute_post_occ_witness :
    (sPostW.next_msg 0 ≠ 5 ∧ (execute_post_task sPostW dPostFail).1.success = false) ∧
    (sPostW.next_msg 0 = 0 ∧ (execute_post_task sPostW dPostOk).1.success = true) :=
  ⟨⟨by decide, ((C1_execute_post_occ sPostW dPostFail).1 (by decide)).1⟩,
   ⟨rfl, ((C1_execute_post_occ sPostW dPostOk).2 rfl).1⟩⟩

/-- Store for the C2 failing input: channel 0 holds 21 messages (one more
than `MAX_RETURNED_MESSAGES`), all with author 7; channel 1 holds one
message with author 99. -/
def sC2 : ServerState :=
  { next_msg := fun c => if c = 0 then 21 else if c = 1 then 1 else 0
    next_unread := fun _ _ => 0
    messages := fun c j =>
      if c = 0 ∧ j < 21 then some { message_id := j, author_id := 7, timestamp := 0, text := "a" }
      else if c = 1 ∧ j = 0 then
        some { message_id := 0, author_id := 99, timestamp := 0, text := "b" }
      else none
    watched := wId }

/-- Write-cursor snapshot matching `sC2`. -/
def chanSnapC2 : Fin CHANNELS_PER_USER → Nat :=
  fun i => if i.val = 0 then 21 else if i.val = 1 then 1 else 0

/-- Fetch argument for the C2 failing input (fresh snapshots of `sC2`). -/
def dC2 : ExecuteFetchData :=
  { user_id := 0, watched_channel_ids := fun i => i.val,
    next_unread_msg_ids := fun _ => 0, next_channel_msg_ids := chanSnapC2 }

/-- Claim C2, failing input: with a 21-message backlog on slot 0 the
dispatcher registers 21 message regions for slot 0, but the execute loop
caps slot 0 at 20 reads, so its running index is off by one from then on:
the single message returned for slot 1 (stored at response index 21 with
`message_id = 0`) carries author 7 — the contents of channel 0's message
20 — although channel 1's log holds author 99 at id 0. -/
theorem C2_fetch_misaligned_read :
    (execute_fetch_task sC2 dC2 (fetchRegions (fun i => i.val) (fun _ => 0) chanSnapC2)
        0).1.success = true ∧
    (execute_fetch_task sC2 dC2 (fetchRegions (fun i => i.val) (fun _ => 0) chanSnapC2)
        0).1.writes.getD 20 (0, emptyMessage) =
      (21, { message_id := 0, author_id := 7, timestamp := 0, text := "a" }) ∧
    sC2.messages 1 0 = some { message_id := 0, author_id := 99, timestamp := 0, text := "b" } := by
  decide

/-- Claim C3: a fetch whose read-cursor snapshot differs from the user's
current cursors in some slot fails, stores no message into the response,
and leaves the entire store (read cursors, write cursors, message slots)
unchanged. -/
theorem C3_fetch_stale_no_mutation (s : ServerState) (d : ExecuteFetchData)
    (regions : List (Nat × Nat)) (junkCount : Nat)
    (h : ∃ i, d.next_unread_msg_ids i ≠ s.next_unread d.user_id i) :
    (execute_fetch_task s d regions junkCount).1.success = false ∧
    (execute_fetch_task s d regions junkCount).1.writes = [] ∧
    (execute_fetch_task s d regions junkCount).2 = s := by
  have hcond : ¬ ∀ i, d.next_unread_msg_ids i = s.next_unread d.user_id i := by
    obtain ⟨i, hi⟩ := h
    exact fun hall => hi (hall i)
  unfold execute_fetch_task
  rw [if_neg hcond]
  exact ⟨rfl, rfl, rfl⟩

/-- Store whose user 0 has already read 5 messages on slot 0 (so a
zero snapshot is stale). -/
def sStale : ServerState :=
  { next_msg := fun c => if c = 0 then 5 else 0
    next_unread := fun u i => if u = 0 ∧ i.val = 0 then 5 else 0
    messages := fun c j =>
      if c = 0 ∧ j < 5 then some { message_id := j, author_id := 2, timestamp := 0, text := "m" }
      else none
    watched := wId }

/-- A stale fetch argument against `sStale`: zero read-cursor snapshot. -/
def dStale : ExecuteFetchData :=
  { user_id := 0, watched_channel_ids := fun i => i.val,
    next_unread_msg_ids := fun _ => 0, next_channel_msg_ids := fun _ => 0 }

/-- Witness for `C3_fetch_stale_no_mutation` at a concrete stale fetch. -/
theorem C3_fetch_stale_no_mutation_witness :
    (∃ i, dStale.next_unread_msg_ids i ≠ sStale.next_unread dStale.user_id i) ∧
    ((execute_fetch_task sStale dStale [] 7).1.success = false ∧
     (execute_fetch_task sStale dStale [] 7).1.writes = [] ∧
     (execute_fetch_task sStale dStale [] 7).2 = sStale) :=
  ⟨⟨⟨0, by decide⟩, by decide⟩, C3_fetch_stale_no_mutation sStale dStale [] 7 ⟨⟨0, by decide⟩, by decide⟩⟩

/-- Store for the C6 failing input: channel 0 holds exactly
`MAX_RETURNED_MESSAGES` messages. -/
def sC6 : ServerState :=
  { next_msg := fun c => if c = 0 then 20 else 0
    next_unread := fun _ _ => 0
    messages := fun c j =>
      if c = 0 ∧ j < 20 then some { message_id := j, author_id := 1, timestamp := 0, text := "x" }
      else none
    watched := wId }

/-- Write-cursor snapshot matching `sC6`. -/
def chanSnapC6 : Fin CHANNELS_PER_USER → Nat := fun i => if i.val = 0 then 20 else 0

/-- Fetch argument for the C6 failing input. -/
def dC6 : ExecuteFetchData :=
  { user_id := 0, watched_channel_ids := fun i => i.val,
    next_unread_msg_ids := fun _ => 0, next_channel_msg_ids := chanSnapC6 }

/-- Claim C6, failing input: because the store index starts at 1 (to match
the region numbering), a single slot with `MAX_RETURNED_MESSAGES` unread
messages already stores into `messages[MAX_RETURNED_MESSAGES]` — one past
the last valid index of the `Message msgs[MAX_RETURNED_MESSAGES]` array. -/
theorem C6_result_index_overflow :
    (execute_fetch_task sC6 dC6 (fetchRegions (fun i => i.val) (fun _ => 0) chanSnapC6)
        0).1.writes.length = 20 ∧
    ((execute_fetch_task sC6 dC6 (fetchRegions (fun i => i.val) (fun _ => 0) chanSnapC6)
        0).1.writes.getD 19 (0, emptyMessage)).1 = MAX_RETURNED_MESSAGES ∧
    ¬ MAX_RETURNED_MESSAGES < MAX_RETURNED_MESSAGES := by
  decide

/-- Fetch argument for the C7 failing input: nothing to read (all
snapshots equal), against the pristine store. -/
def dC7 : ExecuteFetchData :=
  { user_id := 0, watched_channel_ids := fun i => i.val,
    next_unread_msg_ids := fun _ => 0, next_channel_msg_ids := fun _ => 0 }

/-- Claim C7, failing input: a successful fetch that reads no message at
all still reports `num_messages = 1`, because the source initializes the
running index to 1 (the first message-region position) and returns that
index as the count. -/
theorem C7_num_messages_off_by_one :
    (execute_fetch_task (initState wId) dC7
        (fetchRegions (fun i => i.val) (fun _ => 0) (fun _ => 0)) 0).1.success = true ∧
    (execute_fetch_task (initState wId) dC7
        (fetchRegions (fun i => i.val) (fun _ => 0) (fun _ => 0)) 0).1.writes = [] ∧
    (execute_fetch_task (initState wId) dC7
        (fetchRegions (fun i => i.val) (fun _ => 0) (fun _ => 0)) 0).1.num_messages = 1 ∧
    (1 : Nat) ≠ 0 := by
  decide

/-- Claim C10, failing input: on a stale fetch the source returns the
response with `num_messages` never assigned (`ExecuteFetchResponse
response;`), so the field keeps its indeterminate initial value — here 7,
not 0. -/
theorem C10_failed_fetch_num_messages :
    (execute_fetch_task sStale dStale [] 7).1.success = false ∧
    (execute_fetch_task sStale dStale [] 7).1.num_messages = 7 ∧
    (7 : Nat) ≠ 0 := by
  decide

/-- Claim C8, counterexample: with `-n 1 -k 4 -m 1 -t 2` supplied and the
ratio option absent, the claim requires a non-zero exit (`request_ratio`
missing), but `request_ratio` is initialized to 1 in `dispatch_task`, so
every check passes and the process proceeds. -/
theorem C8_missing_ratio_counterexample :
    exitsPerClaim (some 1) (some 4) (some 1) (some 2) none ∧
    proceedsArgs (some 1) (some 4) (some 1) (some 2) none = true := by
  refine ⟨?_, by decide⟩
  unfold exitsPerClaim
  exact Or.inr (Or.inr (Or.inr (Or.inr (Or.inl (Or.inl rfl)))))

/-- Claim C8 (amended): for option values within their integer widths, the
process exits with a non-zero status iff `user_count`, `channel_count`,
`message_count` or `total_requests` is zero or missing, or `request_ratio`
is zero (when absent it defaults to 1 and does not cause an exit), or
`channel_count < CHANNELS_PER_USER`, or
`total_requests / (request_ratio + 1) = 0`; otherwise it proceeds. -/
theorem C8_config_validation (n k m t r : Option Nat)
    (hn : n.getD 0 < UINT16_MOD) (hk : k.getD 0 < UINT8_MOD)
    (hm : m.getD 0 < UINT32_MOD) (ht : t.getD 0 < UINT64_MOD)
    (hr : r.getD 1 + 1 < UINT32_MOD) :
    proceedsArgs n k m t r = false ↔
      (n.getD 0 = 0 ∨ k.getD 0 = 0 ∨ m.getD 0 = 0 ∨ t.getD 0 = 0 ∨ r.getD 1 = 0 ∨
       k.getD 0 < CHANNELS_PER_USER ∨ t.getD 0 / (r.getD 1 + 1) = 0) := by
  have hr' : r.getD 1 < UINT32_MOD := Nat.lt_of_succ_lt hr
  unfold proceedsArgs
  simp only [Nat.mod_eq_of_lt hn, Nat.mod_eq_of_lt hk, Nat.mod_eq_of_lt hm,
    Nat.mod_eq_of_lt ht, Nat.mod_eq_of_lt hr', Nat.mod_eq_of_lt hr]
  split_ifs with h1 h2 h3 <;> simp_all
  tauto

/-- Witness for `C8_config_validation` at an in-range configuration. -/
theorem C8_config_validation_witness :
    ((some 1 : Option Nat).getD 0 < UINT16_MOD ∧ (some 4 : Option Nat).getD 0 < UINT8_MOD ∧
     (some 1 : Option Nat).getD 0 < UINT32_MOD ∧ (some 2 : Option Nat).getD 0 < UINT64_MOD ∧
     (some 1 : Option Nat).getD 1 + 1 < UINT32_MOD) ∧
    (proceedsArgs (some 1) (some 4) (some 1) (some 2) (some 1) = false ↔
      ((some 1 : Option Nat).getD 0 = 0 ∨ (some 4 : Option Nat).getD 0 = 0 ∨
       (some 1 : Option Nat).getD 0 = 0 ∨ (some 2 : Option Nat).getD 0 = 0 ∨
       (some 1 : Option Nat).getD 1 = 0 ∨
       (some 4 : Option Nat).getD 0 < CHANNELS_PER_USER ∨
       (some 2 : Option Nat).getD 0 / ((some 1 : Option Nat).getD 1 + 1) = 0)) :=
  ⟨⟨by decide, by decide, by decide, by decide, by decide⟩,
   C8_config_validation (some 1) (some 4) (some 1) (some 2) (some 1)
     (by decide) (by decide) (by decide) (by decide) (by decide)⟩

/-- Claim C9, counterexample: over a run that admits one POST request and
later launches its execute task, the `time` counter is incremented twice
(once at `requests.pop_front(); time++` and once at the POST launch's
`time++`), so it does not equal the number of admitted requests. -/
theorem C9_single_increment_counterexample :
    timeAfter [DispatchEvent.popReq, DispatchEvent.launchPost] 0 = 2 ∧
    popCount [DispatchEvent.popReq, DispatchEvent.launchPost] = 1 ∧
    (2 : Nat) ≠ 1 := by
  decide

/-- Every timestamp produced from start value `t` is at least `t`. -/
theorem postTimestamps_le (es : List DispatchEvent) (t : Nat) :
    ∀ x ∈ postTimestamps es t, t ≤ x := by
  induction es generalizing t with
  | nil => simp [postTimestamps]
  | cons e es ih =>
    cases e with
    | launchPost =>
      intro x hx
      rcases List.mem_cons.mp hx with h | h
      · omega
      · have := ih (t + 1) x h
        omega
    | launchFetch => exact ih t
    | popReq =>
      intro x hx
      have := ih (t + 1) x hx
      omega

/-- Claim C9 (amended): over any dispatch run the `time` counter advances
once per admitted request AND once per POST execute-task launch, and the
timestamps stamped onto successive POST execute tasks are strictly
increasing regardless of completion order. -/
theorem C9_timestamp_monotone (es : List DispatchEvent) (t : Nat) :
    timeAfter es t = t + popCount es + launchPostCount es ∧
    List.Pairwise (fun a b => a < b) (postTimestamps es t) := by
  induction es generalizing t with
  | nil => simp [timeAfter, popCount, launchPostCount, postTimestamps]
  | cons e es ih =>
    cases e with
    | launchPost =>
      refine ⟨?_, ?_⟩
      · have := (ih (t + 1)).1
        simp only [timeAfter, popCount, launchPostCount] at *
        omega
      · refine List.Pairwise.cons ?_ (ih (t + 1)).2
        intro b hb
        have := postTimestamps_le es (t + 1) b hb
        omega
    | launchFetch =>
      refine ⟨?_, (ih t).2⟩
      have := (ih t).1
      simp only [timeAfter, popCount, launchPostCount] at *
      omega
    | popReq =>
      refine ⟨?_, (ih (t + 1)).2⟩
      have := (ih (t + 1)).1
      simp only [timeAfter, popCount, launchPostCount] at *
      omega

/-- Witness for `C9_timestamp_monotone` at a concrete event sequence. -/
theorem C9_timestamp_monotone_witness :
    timeAfter [DispatchEvent.popReq, DispatchEvent.launchPost, DispatchEvent.launchFetch,
        DispatchEvent.popReq, DispatchEvent.launchPost] 0 =
      0 + popCount [DispatchEvent.popReq, DispatchEvent.launchPost, DispatchEvent.launchFetch,
        DispatchEvent.popReq, DispatchEvent.launchPost] +
        launchPostCount [DispatchEvent.popReq, DispatchEvent.launchPost,
          DispatchEvent.launchFetch, DispatchEvent.popReq, DispatchEvent.launchPost] ∧
    List.Pairwise (fun a b => a < b)
      (postTimestamps [DispatchEvent.popReq, DispatchEvent.launchPost,
        DispatchEvent.launchFetch, DispatchEvent.popReq, DispatchEvent.launchPost] 0) :=
  C9_timestamp_monotone _ 0

/-- The store returned by `execute_post_task`, as a conditional. -/
theorem execute_post_snd (s : ServerState) (c e : Nat) (m : Message) :
    (execute_post_task s { channel_id := c, next_channel_msg_id := e, message := m }).2 =
      if s.next_msg c = e then
        { s with
          messages := fun c' j' => if c' = c ∧ j' = e then some m else s.messages c' j'
          next_msg := Function.update s.next_msg c ((s.next_msg c + 1) % UINT32_MOD) }
      else s := by
  unfold execute_post_task
  split <;> rfl

/-- `execute_post_task` succeeds exactly when the OCC check passes. -/
theorem execute_post_success (s : ServerState) (c e : Nat) (m : Message) :
    (execute_post_task s { channel_id := c, next_channel_msg_id := e, message := m }).1.success =
      true ↔ s.next_msg c = e := by
  unfold execute_post_task
  by_cases h : s.next_msg c = e
  · rw [if_pos h]
    simp [h]
  · rw [if_neg h]
    simp [h]

/-- The store returned by `execute_fetch_task`, as a conditional. -/
theorem execute_fetch_snd (s : ServerState) (d : ExecuteFetchData)
    (regions : List (Nat × Nat)) (junkCount : Nat) :
    (execute_fetch_task s d regions junkCount).2 =
      if ∀ i, d.next_unread_msg_ids i = s.next_unread d.user_id i then
        { s with
          next_unread := Function.update s.next_unread d.user_id
            (fun i => upperBound d.next_unread_msg_ids d.next_channel_msg_ids i) }
      else s := by
  unfold execute_fetch_task
  split <;> rfl

/-- A fetch step never changes any channel's write cursor. -/
theorem step_fetch_next_msg (s : ServerState) (u : Nat)
    (rs ws : Fin CHANNELS_PER_USER → Nat) (junk : Nat) :
    (step s (Op.fetch u rs ws junk)).next_msg = s.next_msg := by
  show (execute_fetch_task s _ _ _).2.next_msg = s.next_msg
  rw [execute_fetch_snd]
  split <;> rfl

/-- A fetch step never changes any message slot. -/
theorem step_fetch_messages (s : ServerState) (u : Nat)
    (rs ws : Fin CHANNELS_PER_USER → Nat) (junk : Nat) :
    (step s (Op.fetch u rs ws junk)).messages = s.messages := by
  show (execute_fetch_task s _ _ _).2.messages = s.messages
  rw [execute_fetch_snd]
  split <;> rfl

/-- The read cursors after a fetch step: on a passing validation the
user's cursors all move to their `upperBound`, otherwise nothing moves. -/
theorem step_fetch_next_unread (s : ServerState) (u : Nat)
    (rs ws : Fin CHANNELS_PER_USER → Nat) (junk : Nat) :
    (step s (Op.fetch u rs ws junk)).next_unread =
      if ∀ i, rs i = s.next_unread u i then
        Function.update s.next_unread u (fun i => upperBound rs ws i)
      else s.next_unread := by
  show (execute_fetch_task s _ _ _).2.next_unread = _
  rw [execute_fetch_snd]
  split <;> rfl

/-- A post step never changes any read cursor. -/
theorem step_post_next_unread (s : ServerState) (c e : Nat) (m : Message) :
    (step s (Op.post c e m)).next_unread = s.next_unread := by
  show (execute_post_task s _).2.next_unread = s.next_unread
  rw [execute_post_snd]
  split <;> rfl

/-- No step changes the followed-channels table. -/
theorem step_watched (s : ServerState) (op : Op) : (step s op).watched = s.watched := by
  cases op with
  | post c e m =>
    show (execute_post_task s _).2.watched = s.watched
    rw [execute_post_snd]
    split <;> rfl
  | fetch u rs ws junk =>
    show (execute_fetch_task s _ _ _).2.watched = s.watched
    rw [execute_fetch_snd]
    split <;> rfl

/-- An operation that does not wrap the `uint32_t` cursor can only move a
write cursor up. -/
theorem step_next_msg_le (s : ServerState) (op : Op)
    (h : ∀ c e m, op = Op.post c e m → e + 1 < UINT32_MOD) (c : Nat) :
    s.next_msg c ≤ (step s op).next_msg c := by
  cases op with
  | post c' e m =>
    have he : e + 1 < UINT32_MOD := h c' e m rfl
    show s.next_msg c ≤ (execute_post_task s _).2.next_msg c
    rw [execute_post_snd]
    by_cases hcond : s.next_msg c' = e
    · rw [if_pos hcond]
      by_cases hc : c = c'
      · subst hc
        show s.next_msg c ≤ Function.update s.next_msg c ((s.next_msg c + 1) % UINT32_MOD) c
        rw [Function.update_same, hcond, Nat.mod_eq_of_lt he]
        omega
      · show s.next_msg c ≤ Function.update s.next_msg c' ((s.next_msg c' + 1) % UINT32_MOD) c
        rw [Function.update_noteq hc]
    · rw [if_neg hcond]
  | fetch u rs ws junk =>
    rw [step_fetch_next_msg]

/-- Write cursors are monotone along a run of non-wrapping operations. -/
theorem foldl_next_msg_le (l : List Op) (s : ServerState) (c : Nat)
    (h : ∀ op ∈ l, ∀ c' e m, op = Op.post c' e m → e + 1 < UINT32_MOD) :
    s.next_msg c ≤ (l.foldl step s).next_msg c := by
  induction l generalizing s with
  | nil => exact le_refl _
  | cons op l ih =>
    calc s.next_msg c ≤ (step s op).next_msg c :=
          step_next_msg_le s op (h op (List.mem_cons_self op l)) c
      _ ≤ (l.foldl step (step s op)).next_msg c :=
          ih (step s op) (fun op' hop' => h op' (List.mem_cons_of_mem op hop'))

/-- Running a trace equals running its remainder from any prefix state. -/
theorem runTrace_decompose (w : Nat → Fin CHANNELS_PER_USER → Nat) (ops : List Op) (j : Nat) :
    runTrace w ops = (ops.drop j).foldl step (runTrace w (ops.take j)) := by
  conv_lhs => rw [runTrace, ← List.take_append_drop j ops, List.foldl_append]
  rfl

/-- `List.get` of an append, read off the left part. -/
theorem get_append_left_fin {α : Type} (l₁ l₂ : List α) (k : Nat) (hk : k < l₁.length)
    (hk2 : k < (l₁ ++ l₂).length) : (l₁ ++ l₂).get ⟨k, hk2⟩ = l₁.get ⟨k, hk⟩ := by
  rw [List.get_eq_getElem, List.get_eq_getElem]
  exact List.getElem_append_left hk

/-- `List.get` of an append at the left part's length is the appended
element. -/
theorem get_concat_last {α : Type} (l : List α) (a : α)
    (h : l.length < (l ++ [a]).length) : (l ++ [a]).get ⟨l.length, h⟩ = a := by
  rw [List.get_eq_getElem]
  exact List.getElem_concat_length l a _ rfl _

/-- Variant of `get_concat_last` with the index given by an equation. -/
theorem get_concat_last' {α : Type} (l : List α) (a : α) (k : Nat) (hkl : k = l.length)
    (h : k < (l ++ [a]).length) : (l ++ [a]).get ⟨k, h⟩ = a := by
  rw [List.get_eq_getElem]
  exact List.getElem_concat_length l a _ hkl _

/-- The snapshot condition restricts to a shorter run. -/
theorem snapshotsOk_of_append (w : Nat → Fin CHANNELS_PER_USER → Nat)
    (ops : List Op) (op : Op) (h : snapshotsOk w (ops ++ [op])) : snapshotsOk w ops := by
  intro k hk u rs ws junk hget i
  have hk' : k < (ops ++ [op]).length := by
    rw [List.length_append]
    omega
  have hget' : (ops ++ [op]).get ⟨k, hk'⟩ = Op.fetch u rs ws junk := by
    rw [get_append_left_fin ops [op] k hk hk']
    exact hget
  obtain ⟨j, hj, hws⟩ := h k hk' u rs ws junk hget' i
  have hjlen : j ≤ ops.length := le_trans hj (le_of_lt hk)
  rw [List.take_append_of_le_length hjlen] at hws
  exact ⟨j, hj, hws⟩

/-- The read-cursor bound of claim C4, relative to the followed-channels
table `w`. -/
def cursorBound (w : Nat → Fin CHANNELS_PER_USER → Nat) (s : ServerState) : Prop :=
  ∀ u i, s.next_unread u i ≤ s.next_msg (w u i)


/-- A successful post to channel 0 expecting cursor value `n`. -/
def postOp (n : Nat) : Op := Op.post 0 n emptyMessage

/-- `n` consecutive posts to channel 0 expecting 0, 1, …, n-1. -/
def postOps (n : Nat) : List Op := (List.range n).map postOp

/-- Length of `postOps n`. -/
theorem postOps_length (n : Nat) : (postOps n).length = n := by
  rw [postOps, List.length_map, List.length_range]

/-- The store after `postOps n` (for `n ≤ 2^32`): channel 0's cursor has
been incremented `n` times mod `2^32` and slots `0..n-1` hold messages. -/
def postsResult (w : Nat → Fin CHANNELS_PER_USER → Nat) (n : Nat) : ServerState :=
  { next_msg := fun c => if c = 0 then n % UINT32_MOD else 0
    next_unread := fun _ _ => 0
    messages := fun c j => if c = 0 ∧ j < n then some emptyMessage else none
    watched := w }

/-- Running `postOps n` from the initial state: every post succeeds and
the cursor wraps at `2^32`. -/
theorem runTrace_postOps (w : Nat → Fin CHANNELS_PER_USER → Nat) :
    ∀ n, n ≤ UINT32_MOD → runTrace w (postOps n) = postsResult w n := by
  intro n
  induction n with
  | zero =>
    intro _
    have h0 : postOps 0 = [] := rfl
    rw [h0]
    apply ServerState.ext
    · funext c
      show (0 : Nat) = if c = 0 then 0 % UINT32_MOD else 0
      rw [Nat.zero_mod, ite_self]
    · rfl
    · funext c j
      show none = if c = 0 ∧ j < 0 then some emptyMessage else none
      rw [if_neg (fun h => Nat.not_lt_zero j h.2)]
    · rfl
  | succ n ih =>
    intro hn
    have hn' : n < UINT32_MOD := by omega
    have hstep : postOps (n + 1) = postOps n ++ [postOp n] := by
      rw [postOps, List.range_succ, List.map_append]
      rfl
    rw [hstep, runTrace, List.foldl_append]
    rw [show List.foldl step (initState w) (postOps n) = postsResult w n from ih (le_of_lt hn')]
    show step (postsResult w n) (postOp n) = postsResult w (n + 1)
    show (execute_post_task (postsResult w n)
      { channel_id := 0, next_channel_msg_id := n, message := emptyMessage }).2 = _
    rw [execute_post_snd]
    have hcur : (postsResult w n).next_msg 0 = n := by
      show (if (0 : Nat) = 0 then n % UINT32_MOD else 0) = n
      rw [if_pos rfl, Nat.mod_eq_of_lt hn']
    rw [if_pos hcur]
    apply ServerState.ext
    · funext c
      show Function.update (postsResult w n).next_msg 0
        (((postsResult w n).next_msg 0 + 1) % UINT32_MOD) c = (postsResult w (n + 1)).next_msg c
      by_cases hc : c = 0
      · subst hc
        rw [Function.update_same, hcur]
        show (n + 1) % UINT32_MOD = if (0 : Nat) = 0 then (n + 1) % UINT32_MOD else 0
        rw [if_pos rfl]
      · rw [Function.update_noteq hc]
        show (if c = 0 then n % UINT32_MOD else 0) = if c = 0 then (n + 1) % UINT32_MOD else 0
        rw [if_neg hc, if_neg hc]
    · rfl
    · funext c j
      show (if c = 0 ∧ j = n then some emptyMessage else (postsResult w n).messages c j) =
        (postsResult w (n + 1)).messages c j
      show (if c = 0 ∧ j = n then some emptyMessage
        else if c = 0 ∧ j < n then some emptyMessage else none) =
        if c = 0 ∧ j < n + 1 then some emptyMessage else none
      split_ifs <;> first | rfl | omega
    · rfl


/-- Every element of `postOps n` is the corresponding `postOp`. -/
theorem postOps_get (n k : Nat) (hk : k < (postOps n).length) :
    (postOps n).get ⟨k, hk⟩ = postOp k := by
  rw [List.get_eq_getElem]
  simp only [postOps, List.getElem_map, List.getElem_range]

/-- Claim C5, counterexample: after `2^32` successful posts to channel 0
the write cursor has wrapped back to 0 while every slot `0..2^32-1` is
written, so the written slots are not `{0, …, next_msg - 1}`. -/
theorem C5_log_contiguity_counterexample :
    ¬ logContiguity (runTrace wId (postOps UINT32_MOD)) := by
  rw [runTrace_postOps wId UINT32_MOD (le_refl _)]
  intro h
  have hm : ((postsResult wId UINT32_MOD).messages 0 0).isSome = true := by
    show (if (0 : Nat) = 0 ∧ (0 : Nat) < UINT32_MOD then some emptyMessage else none).isSome = true
    rw [if_pos ⟨rfl, by norm_num [UINT32_MOD]⟩]
    rfl
  have hn : (postsResult wId UINT32_MOD).next_msg 0 = 0 := by
    show (if (0 : Nat) = 0 then UINT32_MOD % UINT32_MOD else 0) = 0
    rw [if_pos rfl, Nat.mod_self]
  have hlt := (h 0 0).mp hm
  rw [hn] at hlt
  omega

/-- The write-cursor snapshot of the wrap-around fetch: `2^32 - 1` on
slot 0 — the value channel 0's cursor had one post before the end. -/
def wsWrap : Fin CHANNELS_PER_USER → Nat := fun i => if i.val = 0 then UINT32_MOD - 1 else 0

/-- `2^32` posts followed by a fetch whose write snapshot is taken from
the state just before the last post. -/
def opsWrap : List Op := postOps UINT32_MOD ++ [Op.fetch 0 (fun _ => 0) wsWrap 0]

/-- Claim C4, counterexample: in the run `opsWrap` every fetch snapshot
comes from an earlier state of the same run, yet the final state has
user 0's slot-0 read cursor at 20 while channel 0's (wrapped) write
cursor is 0 — the claimed bound fails. -/
theorem C4_cursor_bound_counterexample :
    snapshotsOk wId opsWrap ∧ ¬ cursorBound wId (runTrace wId opsWrap) := by
  have hruns : runTrace wId opsWrap =
      step (postsResult wId UINT32_MOD) (Op.fetch 0 (fun _ => 0) wsWrap 0) := by
    rw [opsWrap, runTrace, List.foldl_append]
    rw [show List.foldl step (initState wId) (postOps UINT32_MOD) = postsResult wId UINT32_MOD
      from runTrace_postOps wId UINT32_MOD (le_refl _)]
    rfl
  constructor
  · intro k hk u rs ws junk hget i
    by_cases hklt : k < UINT32_MOD
    · have hkpost : k < (postOps UINT32_MOD).length := by
        rw [postOps_length]
        exact hklt
      have hpost : opsWrap.get ⟨k, hk⟩ = postOp k := by
        show (postOps UINT32_MOD ++ [Op.fetch 0 (fun _ => 0) wsWrap 0]).get ⟨k, hk⟩ = postOp k
        rw [get_append_left_fin _ _ k hkpost]
        exact postOps_get UINT32_MOD k hkpost
      rw [hpost] at hget
      exact Op.noConfusion hget
    · have hlen : opsWrap.length = UINT32_MOD + 1 := by
        rw [opsWrap, List.length_append, postOps_length]
        rfl
      have hkeq : k = (postOps UINT32_MOD).length := by
        rw [postOps_length]
        rw [hlen] at hk
        omega
      have hgetl : opsWrap.get ⟨k, hk⟩ = Op.fetch 0 (fun _ => 0) wsWrap 0 := by
        show (postOps UINT32_MOD ++ [Op.fetch 0 (fun _ => 0) wsWrap 0]).get
          ⟨k, hk⟩ = Op.fetch 0 (fun _ => 0) wsWrap 0
        exact get_concat_last' _ _ k hkeq hk
      rw [hgetl] at hget
      injection hget with h1 h2 h3 h4
      subst h1
      subst h2
      subst h3
      by_cases hi : i.val = 0
      · refine ⟨UINT32_MOD - 1, ?_, ?_⟩
        · rw [hkeq, postOps_length]
          omega
        · have htake : opsWrap.take (UINT32_MOD - 1) = postOps (UINT32_MOD - 1) := by
            rw [opsWrap, List.take_append_of_le_length (by rw [postOps_length]; omega)]
            rw [postOps, postOps, ← List.map_take, List.take_range, min_eq_left (by omega)]
          rw [htake, runTrace_postOps wId (UINT32_MOD - 1) (by omega)]
          show wsWrap i = (postsResult wId (UINT32_MOD - 1)).next_msg (wId 0 i)
          show (if i.val = 0 then UINT32_MOD - 1 else 0) =
            if wId 0 i = 0 then (UINT32_MOD - 1) % UINT32_MOD else 0
          rw [if_pos hi, show wId 0 i = (0 : Nat) from hi, if_pos rfl,
            Nat.mod_eq_of_lt (by norm_num [UINT32_MOD])]
      · refine ⟨0, Nat.zero_le _, ?_⟩
        show wsWrap i = (runTrace wId (opsWrap.take 0)).next_msg (wId 0 i)
        rw [List.take_zero]
        show (if i.val = 0 then UINT32_MOD - 1 else 0) = 0
        rw [if_neg hi]
  · intro hcb
    have h00 := hcb 0 ⟨0, by decide⟩
    rw [hruns] at h00
    rw [step_fetch_next_msg, step_fetch_next_unread] at h00
    have hval : ∀ i2 : Fin CHANNELS_PER_USER,
        (fun _ : Fin CHANNELS_PER_USER => (0 : Nat)) i2 =
          (postsResult wId UINT32_MOD).next_unread 0 i2 := fun _ => rfl
    rw [if_pos hval, Function.update_same] at h00
    have hnm : (postsResult wId UINT32_MOD).next_msg (wId 0 ⟨0, by decide⟩) = 0 := by
      show (if (0 : Nat) = 0 then UINT32_MOD % UINT32_MOD else 0) = 0
      rw [if_pos rfl, Nat.mod_self]
    rw [hnm] at h00
    have h00' : upperBound (fun _ => 0) wsWrap ⟨0, by decide⟩ ≤ 0 := h00
    have hub : upperBound (fun _ => 0) wsWrap ⟨0, by decide⟩ = 20 := by decide
    rw [hub] at h00'
    omega

/-- Claim C4 (amended): if additionally no post of the run wraps the
`uint32_t` write cursor past `2^32`, then in every state reachable by a
run whose fetch snapshots were taken from earlier states of the same run,
every `(user, slot)` read cursor is at most the followed channel's write
cursor. -/
theorem C4_cursor_bound (w : Nat → Fin CHANNELS_PER_USER → Nat) (ops : List Op)
    (h1 : snapshotsOk w ops) (h2 : postsNoWrap ops) :
    cursorBound w (runTrace w ops) := by
  revert h1 h2
  induction ops using List.reverseRecOn with
  | nil =>
    intro _ _ u i
    exact Nat.zero_le _
  | append_singleton ops op ih =>
    intro h1 h2
    have hops1 := snapshotsOk_of_append w ops op h1
    have hops2 : postsNoWrap ops := fun op' hmem => h2 op' (List.mem_append_left _ hmem)
    have hbound := ih hops1 hops2
    have hrun : runTrace w (ops ++ [op]) = step (runTrace w ops) op := by
      rw [runTrace, List.foldl_append]
      rfl
    rw [hrun]
    cases op with
    | post c e m =>
      intro u i
      rw [step_post_next_unread]
      exact le_trans (hbound u i)
        (step_next_msg_le (runTrace w ops) (Op.post c e m)
          (fun c' e' m' heq =>
            h2 _ (List.mem_append_right _ (List.mem_singleton_self _)) c' e' m' heq)
          (w u i))
    | fetch u' rs ws junk =>
      intro u i
      rw [step_fetch_next_msg, step_fetch_next_unread]
      by_cases hval : ∀ i2, rs i2 = (runTrace w ops).next_unread u' i2
      · rw [if_pos hval]
        by_cases hu : u = u'
        · subst hu
          rw [Function.update_same]
          have hklen : ops.length < (ops ++ [Op.fetch u rs ws junk]).length := by
            rw [List.length_append, List.length_singleton]
            omega
          have hget : (ops ++ [Op.fetch u rs ws junk]).get ⟨ops.length, hklen⟩ =
              Op.fetch u rs ws junk := get_concat_last _ _ hklen
          obtain ⟨j, hj, hws⟩ := h1 ops.length hklen u rs ws junk hget i
          rw [List.take_append_of_le_length hj] at hws
          have hmono : (runTrace w (ops.take j)).next_msg (w u i) ≤
              (runTrace w ops).next_msg (w u i) := by
            rw [runTrace_decompose w ops j]
            exact foldl_next_msg_le (ops.drop j) (runTrace w (ops.take j)) (w u i)
              (fun op' hop' => hops2 op' (List.drop_subset j ops hop'))
          calc upperBound rs ws i ≤ ws i := min_le_left _ _
            _ = (runTrace w (ops.take j)).next_msg (w u i) := hws
            _ ≤ (runTrace w ops).next_msg (w u i) := hmono
        · rw [Function.update_noteq hu]
          exact hbound u i
      · rw [if_neg hval]
        exact hbound u i

/-- A one-fetch run whose snapshot is the initial state's cursors. -/
def opsW4 : List Op := [Op.fetch 0 (fun _ => 0) (fun _ => 0) 0]

/-- Witness for `C4_cursor_bound` at a concrete run. -/
theorem C4_cursor_bound_witness :
    snapshotsOk wId opsW4 ∧ postsNoWrap opsW4 ∧ cursorBound wId (runTrace wId opsW4) := by
  have hsnap : snapshotsOk wId opsW4 := by
    intro k hk u rs ws junk hget i
    have hk1 : k < 1 := hk
    have hk0 : k = 0 := by omega
    subst hk0
    have h0 : opsW4.get ⟨0, hk⟩ = Op.fetch 0 (fun _ => 0) (fun _ => 0) 0 := rfl
    rw [h0] at hget
    injection hget with h1 h2 h3 h4
    subst h3
    exact ⟨0, le_refl 0, rfl⟩
  have hnw : postsNoWrap opsW4 := by
    intro op hop c e m heq
    simp only [opsW4, List.mem_singleton] at hop
    subst hop
    exact Op.noConfusion heq
  exact ⟨hsnap, hnw, C4_cursor_bound wId opsW4 hsnap hnw⟩

/-- Log contiguity holds along any run whose posts do not wrap. -/
theorem logContiguity_runTrace (w : Nat → Fin CHANNELS_PER_USER → Nat) (ops : List Op)
    (h : postsNoWrap ops) : logContiguity (runTrace w ops) := by
  revert h
  induction ops using List.reverseRecOn with
  | nil =>
    intro _ c j
    show (none : Option Message).isSome = true ↔ j < 0
    constructor
    · intro hx
      exact absurd hx (by decide)
    · intro hx
      exact absurd hx (Nat.not_lt_zero j)
  | append_singleton ops op ih =>
    intro h
    have hops : postsNoWrap ops := fun op' hm => h op' (List.mem_append_left _ hm)
    have hprev := ih hops
    have hrun : runTrace w (ops ++ [op]) = step (runTrace w ops) op := by
      rw [runTrace, List.foldl_append]
      rfl
    rw [hrun]
    cases op with
    | fetch u rs ws junk =>
      intro c j
      rw [step_fetch_messages, step_fetch_next_msg]
      exact hprev c j
    | post c' e m =>
      intro c j
      have he : e + 1 < UINT32_MOD :=
        h _ (List.mem_append_right _ (List.mem_singleton_self _)) c' e m rfl
      show ((execute_post_task (runTrace w ops)
        { channel_id := c', next_channel_msg_id := e, message := m }).2.messages c j).isSome =
          true ↔
        j < (execute_post_task (runTrace w ops)
          { channel_id := c', next_channel_msg_id := e, message := m }).2.next_msg c
      rw [execute_post_snd]
      by_cases hcond : (runTrace w ops).next_msg c' = e
      · rw [if_pos hcond]
        dsimp only
        by_cases hc : c = c'
        · subst hc
          rw [Function.update_same, hcond, Nat.mod_eq_of_lt he]
          by_cases hj : j = e
          · subst hj
            rw [if_pos ⟨rfl, rfl⟩]
            constructor
            · intro _
              omega
            · intro _
              rfl
          · rw [if_neg (fun hand => hj hand.2)]
            have hp := hprev c j
            rw [hcond] at hp
            rw [hp]
            omega
        · rw [Function.update_noteq hc]
          rw [if_neg (fun hand => hc hand.1)]
          exact hprev c j
      · rw [if_neg hcond]
        exact hprev c j

/-- Claim C5 (amended): along any run of posts and fetches none of whose
posts wraps the `uint32_t` cursor, every channel's written slots are
exactly `{0, …, next_msg - 1}` (no gaps), and every successful post
claims a slot that was never written before (no duplicates). -/
theorem C5_log_contiguity (w : Nat → Fin CHANNELS_PER_USER → Nat) (ops : List Op)
    (h : postsNoWrap ops) :
    logContiguity (runTrace w ops) ∧ freshWrites w ops := by
  refine ⟨logContiguity_runTrace w ops h, ?_⟩
  intro k hk c e m hget hsucc
  have htakeNW : postsNoWrap (ops.take k) :=
    fun op' hm => h op' (List.take_subset k ops hm)
  have hcont := logContiguity_runTrace w (ops.take k) htakeNW
  have hcur : (runTrace w (ops.take k)).next_msg c = e :=
    (execute_post_success _ c e m).mp hsucc
  have h2 := hcont c e
  rw [hcur] at h2
  cases hopt : (runTrace w (ops.take k)).messages c e with
  | none => rfl
  | some v =>
    exfalso
    rw [hopt] at h2
    exact absurd (h2.mp rfl) (by omega)

/-- A single-post run. -/
def opsW5 : List Op := [Op.post 0 0 emptyMessage]

/-- Witness for `C5_log_contiguity` at a concrete run. -/
theorem C5_log_contiguity_witness :
    postsNoWrap opsW5 ∧ (logContiguity (runTrace wId opsW5) ∧ freshWrites wId opsW5) := by
  have hnw : postsNoWrap opsW5 := by
    intro op hop c e m heq
    simp only [opsW5, List.mem_singleton] at hop
    subst hop
    injection heq with h1 h2 h3
    subst h2
    norm_num [UINT32_MOD]
  exact ⟨hnw, C5_log_contiguity wId opsW5 hnw⟩
